import Mathlib

/-
Verification of the blazesym address-symbolization core against its
specification. The definitions below are shallow embeddings of the Rust
sources:
  - src/src/error.rs           (error model: kinds, context layering, display)
  - src/src/elf/types.rs       (ELF symbol-type matching)
  - src/src/elf/resolver.rs    (resolver composition and the per-path cache)
  - src/src/dwarf/resolver.rs  (DWARF resolver: language mapping, find_sym,
                                find_addr, for_each, fill_code_info)
Sub-components that the provided sources only call into (the ELF parser
internals, the DWARF unit index, the once-cell primitive) are represented by
explicit parameters or, where a concrete definition is unavoidable, by
definitions modelled from the specification and marked as such.
-/

namespace Blazesym

/-! ## Error model (src/src/error.rs) -/

/-- Embedding of the subset of `std::io::ErrorKind` values that
`ErrorImpl::kind` inspects; `other` stands for every remaining kind. -/
inductive IoErrorKind where
  | notFound
  | permissionDenied
  | alreadyExists
  | wouldBlock
  | invalidInput
  | invalidData
  | timedOut
  | writeZero
  | unsupported
  | unexpectedEof
  | outOfMemory
  | other
  deriving DecidableEq, Repr

/-- The closed `ErrorKind` enum of src/src/error.rs. -/
inductive ErrorKind where
  | NotFound
  | PermissionDenied
  | AlreadyExists
  | WouldBlock
  | InvalidInput
  | InvalidData
  | InvalidDwarf
  | TimedOut
  | WriteZero
  | Unsupported
  | UnexpectedEof
  | OutOfMemory
  | Other
  deriving DecidableEq, Repr

/-- Embedding of `ErrorImpl` from src/src/error.rs. A `std::io::Error` is
represented by its kind, its own display message, and the display messages of
its (possibly empty) source chain, listed outermost first. The two context
variants mirror `ContextOwned` and `ContextStatic`. -/
inductive ErrorImpl where
  | dwarf (msg : String)
  | io (kind : IoErrorKind) (msg : String) (srcs : List String)
  | contextOwned (context : String) (src : ErrorImpl)
  | contextStatic (context : String) (src : ErrorImpl)
  deriving DecidableEq, Repr

/-- The `io::ErrorKind → ErrorKind` arm of `ErrorImpl::kind`. -/
def ioKindMap : IoErrorKind → ErrorKind
  | .notFound => .NotFound
  | .permissionDenied => .PermissionDenied
  | .alreadyExists => .AlreadyExists
  | .wouldBlock => .WouldBlock
  | .invalidInput => .InvalidInput
  | .invalidData => .InvalidData
  | .timedOut => .TimedOut
  | .writeZero => .WriteZero
  | .unsupported => .Unsupported
  | .unexpectedEof => .UnexpectedEof
  | .outOfMemory => .OutOfMemory
  | .other => .Other

/-- `ErrorImpl::kind` from src/src/error.rs: context layers defer to their
source; `Dwarf` maps to `InvalidDwarf`; I/O errors map through `ioKindMap`. -/
def ErrorImpl.kind : ErrorImpl → ErrorKind
  | .dwarf _ => .InvalidDwarf
  | .io k _ _ => ioKindMap k
  | .contextOwned _ src => src.kind
  | .contextStatic _ src => src.kind

/-- The message the `Display` implementation prints for the error itself
(the top of the chain): the context string for context layers, the inner
message for `Dwarf` and `Io`. -/
def ErrorImpl.topDisplay : ErrorImpl → String
  | .dwarf msg => msg
  | .io _ msg _ => msg
  | .contextOwned context _ => context
  | .contextStatic context _ => context

/-- The display messages of the `source()` chain below an error, outermost
source first: `Dwarf` has no source, an I/O error exposes its own source
chain, and a context layer exposes its wrapped error followed by that error's
sources. -/
def ErrorImpl.sourceChain : ErrorImpl → List String
  | .dwarf _ => []
  | .io _ _ srcs => srcs
  | .contextOwned _ src => src.topDisplay :: src.sourceChain
  | .contextStatic _ src => src.topDisplay :: src.sourceChain

/-- The short display form (`Display` without the alternate flag): only the
top-level message is printed. -/
def ErrorImpl.displayShort (e : ErrorImpl) : String :=
  e.topDisplay

/-- The long display form (`Display` with the alternate flag): the top-level
message, then a `": {err}"` fragment for each error in the source chain. -/
def ErrorImpl.displayLong (e : ErrorImpl) : String :=
  List.foldl (fun acc m => acc ++ ": " ++ m) e.topDisplay e.sourceChain

/-- The non-alternate `Debug` form: `"Error: {top}"` and, when a source
exists, a `Caused by:` block listing each chain member on its own line. -/
def ErrorImpl.debugFmt (e : ErrorImpl) : String :=
  let base := "Error: " ++ e.topDisplay
  match e.sourceChain with
  | [] => base
  | srcs => base ++ "\n\nCaused by:" ++ List.foldl (fun acc m => acc ++ "\n    " ++ m) "" srcs

/-- Embedding of `Cow<'static, Str>`: either a borrowed static string or an
owned boxed string. -/
inductive CowStr where
  | borrowed (s : String)
  | owned (s : String)
  deriving DecidableEq, Repr

/-- The plain string content of a `CowStr`. -/
def CowStr.str : CowStr → String
  | .borrowed s => s
  | .owned s => s

/-- `Error::layer_context` from src/src/error.rs: an owned context becomes a
`ContextOwned` layer, a borrowed one a `ContextStatic` layer, in both cases
with the previous error as source. -/
def ErrorImpl.layerContext (e : ErrorImpl) (context : CowStr) : ErrorImpl :=
  match context with
  | .owned context => .contextOwned context e
  | .borrowed context => .contextStatic context e

/-- `<Error as ErrorExt>::context`: layers a borrowed static string. -/
def ErrorImpl.context (e : ErrorImpl) (context : String) : ErrorImpl :=
  e.layerContext (.borrowed context)

/-- `<Error as ErrorExt>::with_context`: stringifies the produced value and
layers it as an owned context. -/
def ErrorImpl.withContext (e : ErrorImpl) (context : String) : ErrorImpl :=
  e.layerContext (.owned context)

/-- Modelled from the spec: `Error::with_unsupported` is not among the
provided sources; per §4.2/§7 it builds an error whose kind is `Unsupported`
carrying the given message (an I/O error of kind `Unsupported`, with no
further source). -/
def ErrorImpl.withUnsupported (msg : String) : ErrorImpl :=
  .io .unsupported msg []

/-- The full message chain of an error: its own top-level message followed by
the messages of its sources, ordered from the outermost context down to the
root cause. -/
def ErrorImpl.messages (e : ErrorImpl) : List String :=
  e.topDisplay :: e.sourceChain

/-- Chain rendering used to state the long display form: the messages joined
with `": "` separators. -/
def chainText : List String → String
  | [] => ""
  | [m] => m
  | m :: rest => m ++ ": " ++ chainText rest

/-- Each chain member on its own indented line, in order. -/
def indentedLines : List String → String
  | [] => ""
  | m :: rest => "\n    " ++ m ++ indentedLines rest

/-- Rendering used to state the `Debug` long form: a `Caused by:` block with
each chain member on its own indented line, or nothing when the chain is
empty. -/
def causedByText : List String → String
  | [] => ""
  | srcs => "\n\nCaused by:" ++ indentedLines srcs

/-! ## ELF symbol typing (src/src/elf/types.rs) -/

/-- The `SymType` enum of the library: a filter and classification for symbol
lookups. -/
inductive SymType where
  | Undefined
  | Function
  | Variable
  deriving DecidableEq, Repr

/-- `STT_OBJECT` from the ELF specification (via goblin). -/
def STT_OBJECT : Nat := 1

/-- `STT_FUNC` from the ELF specification (via goblin). -/
def STT_FUNC : Nat := 2

/-- `STT_GNU_IFUNC` from the ELF specification (via goblin). -/
def STT_GNU_IFUNC : Nat := 10

/-- `goblin::elf::sym::st_type`: the low nibble of the `st_info` byte. -/
def st_type (info : Nat) : Nat :=
  Nat.land info 0xf

/-- Embedding of `Elf64_Sym` (only the fields the provided sources read are
relevant; `st_info` carries the symbol type in its low nibble). -/
structure Elf64_Sym where
  st_name : Nat
  st_info : Nat
  st_other : Nat
  st_shndx : Nat
  st_value : Nat
  st_size : Nat
  deriving DecidableEq, Repr

/-- `impl TryFrom<&Elf64_Sym> for SymType` from src/src/elf/types.rs:
`STT_FUNC` and `STT_GNU_IFUNC` yield `Function`, `STT_OBJECT` yields
`Variable`, everything else is rejected. -/
def symTypeOfElf (other : Elf64_Sym) : Option SymType :=
  if st_type other.st_info = STT_FUNC ∨ st_type other.st_info = STT_GNU_IFUNC then
    some SymType.Function
  else if st_type other.st_info = STT_OBJECT then
    some SymType.Variable
  else
    none

/-- `sym_matches` from src/src/elf/types.rs: whether an ELF symbol-table
entry passes the requested symbol-type filter. -/
def sym_matches (symbol : Elf64_Sym) (sym_type : SymType) : Bool :=
  let elf_ty := st_type symbol.st_info
  let isFunc := elf_ty == STT_FUNC || elf_ty == STT_GNU_IFUNC
  let isVar := elf_ty == STT_OBJECT
  match sym_type with
  | .Undefined => isFunc || isVar
  | .Function => isFunc
  | .Variable => isVar

/-! ## DWARF source-language mapping (src/src/dwarf/resolver.rs) -/

/-- The `SrcLang` enum of the symbolization output. -/
inductive SrcLang where
  | Rust
  | Cpp
  | Unknown
  deriving DecidableEq, Repr

/-- `gimli::DW_LANG_C_plus_plus` (DWARF language code). -/
def DW_LANG_C_plus_plus : Nat := 0x0004

/-- `gimli::DW_LANG_C_plus_plus_03`. -/
def DW_LANG_C_plus_plus_03 : Nat := 0x0019

/-- `gimli::DW_LANG_C_plus_plus_11`. -/
def DW_LANG_C_plus_plus_11 : Nat := 0x001a

/-- `gimli::DW_LANG_Rust`. -/
def DW_LANG_Rust : Nat := 0x001c

/-- `gimli::DW_LANG_C_plus_plus_14`. -/
def DW_LANG_C_plus_plus_14 : Nat := 0x0021

/-- `gimli::DW_LANG_C_plus_plus_17`. -/
def DW_LANG_C_plus_plus_17 : Nat := 0x002a

/-- `gimli::DW_LANG_C_plus_plus_20`. -/
def DW_LANG_C_plus_plus_20 : Nat := 0x002b

/-- Every `DW_LANG_C_plus_plus*` language code defined by gimli, that is, the
C++ family of DWARF source languages. -/
def cppFamilyCodes : List Nat :=
  [DW_LANG_C_plus_plus, DW_LANG_C_plus_plus_03, DW_LANG_C_plus_plus_11,
   DW_LANG_C_plus_plus_14, DW_LANG_C_plus_plus_17, DW_LANG_C_plus_plus_20]

/-- `impl From<Option<gimli::DwLang>> for SrcLang` from
src/src/dwarf/resolver.rs: `DW_LANG_Rust` maps to `Rust`; exactly the four
codes `DW_LANG_C_plus_plus`, `_03`, `_11` and `_14` map to `Cpp`; every
other code, and an absent attribute, maps to `Unknown`. -/
def srcLangFrom : Option Nat → SrcLang
  | some n =>
    if n = DW_LANG_Rust then SrcLang.Rust
    else if n = DW_LANG_C_plus_plus ∨ n = DW_LANG_C_plus_plus_03 ∨
        n = DW_LANG_C_plus_plus_11 ∨ n = DW_LANG_C_plus_plus_14 then SrcLang.Cpp
    else SrcLang.Unknown
  | none => SrcLang.Unknown

/-! ## Symbolization data model (src/src/dwarf/resolver.rs and the types it
fills in) -/

/-- A `Location` as produced by the DWARF line program or an inlined frame's
call-site attributes: directory, file, optional line and column. -/
structure Location where
  dir : String
  file : String
  line : Option Nat
  column : Option Nat
  deriving DecidableEq, Repr

/-- The `CodeInfo` record attached to resolved and inlined symbols. The
column is clamped to the 16-bit range on conversion. -/
structure CodeInfo where
  dir : Option String
  file : String
  line : Option Nat
  column : Option Nat
  deriving DecidableEq, Repr

/-- Conversion of a `Location` into a `CodeInfo`, exactly as performed in
`Units::fill_code_info`: the directory is wrapped in `Some` and the column
saturates at `u16::MAX`. -/
def codeInfoOf (loc : Location) : CodeInfo :=
  { dir := some loc.dir
    file := loc.file
    line := loc.line
    column := loc.column.map (fun col => min col 65535) }

/-- One inlined frame of the output: the function name and the code
information attributed to it. -/
structure InlinedFn where
  name : String
  code_info : Option CodeInfo
  deriving DecidableEq, Repr

/-- The output of an address lookup: name, start address, optional size,
source language, optional code information, and the inlined frames. -/
structure ResolvedSym where
  name : String
  addr : Nat
  size : Option Nat
  lang : SrcLang
  code_info : Option CodeInfo
  inlined : List InlinedFn
  deriving DecidableEq, Repr

/-- The recognized `find_sym` options (§6 of the spec): whether to include
source code information and whether to include the inlined-function stack. -/
structure FindSymOpts where
  code_info : Bool
  inlined_fns : Bool
  deriving DecidableEq, Repr

/-- The closed enum of reasons an address resolves to no symbol. -/
inductive Reason where
  | NoSymbol
  | UnknownSection
  deriving DecidableEq, Repr

/-- The output of a name lookup (`SymInfo`). -/
structure SymInfo where
  name : String
  addr : Nat
  size : Nat
  sym_type : SymType
  file_offset : Option Nat
  obj_file_name : Option String
  deriving DecidableEq, Repr

/-- The `find_addr` options: the symbol-type filter and whether to also
report the file offset. -/
structure FindAddrOpts where
  offset_in_file : Bool
  sym_type : SymType
  deriving DecidableEq, Repr

/-! ## Inline-stack assembly (`Units::fill_code_info`,
src/src/dwarf/resolver.rs lines 243-330)

The inlined-subroutine stack handed over by `find_inlined_functions` is a
list of `(name, optional call-site location)` pairs. Per §4.2 of the spec the
stack is the path through the inlined-subroutine tree ordered root→leaf,
i.e. the first element is the outermost inlined frame and the last element
is the innermost one (`find_inlined_functions` itself is not among the
provided sources; this ordering is modelled from the spec). -/

/-- One iteration of the frame loop in `Units::fill_code_info`, operating on
the accumulator `(direct_code_info, frames-so-far reversed)`. The head of
the reversed list is the most recently pushed frame (`inlined.last_mut()` in
the source). A non-first frame swaps its call-site information with the
previous frame; the first frame swaps it with `direct_code_info`. -/
def fillStep (acc : CodeInfo × List InlinedFn) (frame : String × Option Location) :
    CodeInfo × List InlinedFn :=
  let ci := frame.2.map codeInfoOf
  match acc.2 with
  | last :: rest =>
    (acc.1, { name := frame.1, code_info := last.code_info } ::
      { last with code_info := ci } :: rest)
  | [] =>
    match ci with
    | some c => (c, [{ name := frame.1, code_info := some acc.1 }])
    | none => (acc.1, [{ name := frame.1, code_info := none }])

/-- The frame loop of `Units::fill_code_info`: fold over the inline stack,
then restore source order of the pushed frames. -/
def fillLoop (direct : CodeInfo) (stack : List (String × Option Location)) :
    CodeInfo × List InlinedFn :=
  let result := List.foldl fillStep (direct, []) stack
  (result.1, result.2.reverse)

/-- Closed form of the frame loop on a stack whose call sites are all
present: the frame named `n` (the first of the stack) receives the call site
of the next frame, each later frame likewise receives the call site of its
successor, and the final frame receives `p`. Used to state what
`fillLoop` computes. -/
def chainFrames (p : Option CodeInfo) (n : String) :
    List (String × Location) → List InlinedFn
  | [] => [{ name := n, code_info := p }]
  | (m, e) :: rest =>
    { name := n, code_info := some (codeInfoOf e) } :: chainFrames p m rest

/-- `Units::fill_code_info` from src/src/dwarf/resolver.rs. The outcomes of
the two unit queries it performs are passed in explicitly: `directLoc` is
the result of `self.find_location(addr)` and `data` is `Some` exactly when a
containing DWARF function was found, in which case it carries the result of
`self.find_inlined_functions(addr, function, unit)`. Without the code-info
option or without a direct location the symbol is returned unchanged;
otherwise the direct location and the (possibly empty) shifted inline stack
are written into the symbol. -/
def fillCodeInfo (sym : ResolvedSym) (opts : FindSymOpts)
    (directLoc : Except ErrorImpl (Option Location))
    (data : Option (Except ErrorImpl (Option (List (String × Option Location))))) :
    Except ErrorImpl ResolvedSym :=
  if opts.code_info = false then .ok sym
  else
    match directLoc with
    | .error e => .error e
    | .ok none => .ok sym
    | .ok (some loc) =>
      let direct := codeInfoOf loc
      let filled : Except ErrorImpl (CodeInfo × List InlinedFn) :=
        if opts.inlined_fns then
          match data with
          | some (.error e) => .error e
          | some (.ok (some stack)) => .ok (fillLoop direct stack)
          | some (.ok none) => .ok (direct, [])
          | none => .ok (direct, [])
        else .ok (direct, [])
      match filled with
      | .error e => .error e
      | .ok df =>
        .ok { sym with code_info := some df.1, inlined := df.2 }

/-- Concrete symbol-information record used as a witness input. -/
def exSymInfo : SymInfo :=
  { name := "f", addr := 16, size := 4, sym_type := SymType.Function
    file_offset := none, obj_file_name := none }

/-- Concrete physical symbol used to exhibit the emitted frame order. -/
def exPhysSym : ResolvedSym :=
  { name := "phys", addr := 4096, size := none, lang := SrcLang.Unknown
    code_info := none, inlined := [] }

/-- Concrete line-program row for the queried address. -/
def exDirectLoc : Location := { dir := "dir", file := "direct.c", line := some 1, column := none }

/-- Concrete call site of the outermost inlined frame. -/
def exOuterCall : Location := { dir := "dir", file := "outer.c", line := some 10, column := none }

/-- Concrete call site of the innermost inlined frame. -/
def exInnerCall : Location := { dir := "dir", file := "inner.c", line := some 20, column := none }

/-- Concrete two-frame nesting path, root→leaf: the function named `outer`
is inlined into the physical function and itself contains the inlined call
to `inner`, which covers the queried address. -/
def exStack : List (String × Option Location) :=
  [("outer", some exOuterCall), ("inner", some exInnerCall)]

/-! ## `DwarfResolver::find_sym` (src/src/dwarf/resolver.rs lines 126-166) -/

/-- The per-function data recorded in the DWARF unit index: the optional
(linkage) name and the optional half-open address range. -/
structure DwFunc where
  name : Option String
  range : Option (Nat × Nat)
  deriving DecidableEq, Repr

/-- `DwarfResolver::find_sym`. The outcomes of the sub-queries are explicit
parameters: `findFunctionRes` is `self.units.find_function(addr)` (paired
with the containing unit's language attribute), `elfRes` is
`self.parser.find_sym(addr, opts)`, and `directLoc` / `inlineRes` feed
`fill_code_info` as above. When no DWARF function covers the address the ELF
result is used; an ELF miss reason is returned inside a successful result
without touching code information. -/
def dwarfFindSym (findFunctionRes : Except ErrorImpl (Option (DwFunc × Option Nat)))
    (elfRes : Except ErrorImpl (Sum Reason ResolvedSym))
    (directLoc : Except ErrorImpl (Option Location))
    (inlineRes : Except ErrorImpl (Option (List (String × Option Location))))
    (opts : FindSymOpts) : Except ErrorImpl (Sum Reason ResolvedSym) :=
  match findFunctionRes with
  | .error e => .error e
  | .ok data =>
    let symE : Except ErrorImpl (Sum Reason ResolvedSym) :=
      match data with
      | some fu =>
        .ok (.inr
          { name := fu.1.name.getD ""
            addr := (fu.1.range.map Prod.fst).getD 0
            size := fu.1.range.map (fun r => r.2 - r.1)
            lang := srcLangFrom fu.2
            code_info := none
            inlined := [] })
      | none => elfRes
    match symE with
    | .error e => .error e
    | .ok (.inl reason) => .ok (.inl reason)
    | .ok (.inr sym) =>
      match fillCodeInfo sym opts directLoc (data.map (fun _ => inlineRes)) with
      | .error e => .error e
      | .ok sym => .ok (.inr sym)

/-! ## `DwarfResolver::find_addr` and `DwarfResolver::for_each`
(src/src/dwarf/resolver.rs lines 168-226) -/

/-- Short-circuiting collection of a list of fallible results, as performed
by `collect::<Result<Vec<_>>>()`. -/
def collectResults : List (Except ErrorImpl SymInfo) → Except ErrorImpl (List SymInfo)
  | [] => .ok []
  | .error e :: _ => .error e
  | .ok info :: rest =>
    match collectResults rest with
    | .error e => .error e
    | .ok infos => .ok (info :: infos)

/-- Conversion of one DWARF function found by name into a `SymInfo`, as in
the body of `DwarfResolver::find_addr`: the name is taken from the function
(present by construction of the name search), the address is the range begin
or 0, the size is the checked range length or 0, and the file offset is
computed through the parser only when requested. `fileOffset` stands for
`self.parser.find_file_offset`. -/
def dwSymInfo (fileOffset : Nat → Except ErrorImpl (Option Nat)) (path : String)
    (opts : FindAddrOpts) (f : DwFunc) : Except ErrorImpl SymInfo :=
  let addr := (f.range.map Prod.fst).getD 0
  let size := (f.range.bind (fun r => if r.1 ≤ r.2 then some (r.2 - r.1) else none)).getD 0
  let offE : Except ErrorImpl (Option Nat) :=
    if opts.offset_in_file then fileOffset addr else .ok none
  match offE with
  | .error e => .error e
  | .ok off =>
    .ok
      { name := f.name.getD ""
        addr := addr
        size := size
        sym_type := SymType.Function
        file_offset := off
        obj_file_name := some path }

/-- `DwarfResolver::find_addr`. A `Variable` filter is refused with an
`Unsupported` error before any lookup work; otherwise the matches delivered
by `self.units.find_name(name)` (the `findName` parameter) are converted and
collected. -/
def dwarfFindAddr (findName : String → List (Except ErrorImpl DwFunc))
    (fileOffset : Nat → Except ErrorImpl (Option Nat)) (path : String)
    (name : String) (opts : FindAddrOpts) : Except ErrorImpl (List SymInfo) :=
  if opts.sym_type = SymType.Variable then
    .error (ErrorImpl.withUnsupported "not implemented")
  else
    collectResults ((findName name).map (fun r =>
      match r with
      | .error e => .error e
      | .ok f => dwSymInfo fileOffset path opts f))

/-- `DwarfResolver::for_each`: unconditionally refused with an `Unsupported`
error. -/
def dwarfForEach (_opts : FindAddrOpts) : Except ErrorImpl Unit :=
  .error (ErrorImpl.withUnsupported
    "DWARF logic does not currently support symbol iteration")

/-! ## `ElfResolver::find_addr` with a DWARF backend
(src/src/elf/resolver.rs lines 179-192) -/

/-- The name-lookup composition of `ElfResolver::find_addr` when the backend
is `ElfBackend::Dwarf`: the DWARF result (`dwarfRes`) is consulted first and
returned when it is a non-empty list; an empty DWARF result falls back to
the ELF symbol table result (`elfRes`); a DWARF error propagates. -/
def elfResolverFindAddr (dwarfRes : Except ErrorImpl (List SymInfo))
    (elfRes : Except ErrorImpl (List SymInfo)) : Except ErrorImpl (List SymInfo) :=
  match dwarfRes with
  | .error e => .error e
  | .ok syms => if syms.isEmpty then elfRes else .ok syms

/-! ## The per-path resolver cache (`FileCache::elf_resolver`,
src/src/elf/resolver.rs lines 42-102)

`OnceCell` and `FileCache` are not among the provided sources. Modelled from
the spec: a resolver-cache entry holds two initialize-once cells (`elf`,
`dwarf`); `get` returns the stored value if any, `get_or_try_init` runs the
builder only on an empty cell, stores nothing when the builder fails, and
`get_or_init` keeps an already stored value. The state of one path's cache
entry is `Option (ElfResolverData R)` where `none` means the entry cell has
not been initialized. Resolvers are abstracted to an arbitrary type `R`. -/

/-- Resolver data associated with a specific source: the bare ELF cell and
the DWARF-enabled cell. -/
structure ElfResolverData (R : Type) where
  elf : Option R
  dwarf : Option R
  deriving DecidableEq, Repr

/-- Designated error for the unreachable `unwrap` in
`FileCache::elf_resolver` (the SANITY comments in the source: whenever one
cell is being initialized, the sibling cell is already populated). The
source would panic here. -/
def panicMissingSibling : ErrorImpl :=
  .io .other "sibling resolver cell unexpectedly empty" []

/-- `FileCache::elf_resolver` for one path's cache entry. `buildFromParser`
stands for `ElfResolver::from_parser` on the parser reused from the sibling
cell's resolver, and `buildFresh` for opening the file and building a
resolver from a fresh parser. The returned pair is the call's result and the
cache entry's state after the call. -/
def elfResolver {R : Type} (cell : Option (ElfResolverData R)) (debugSyms : Bool)
    (buildFromParser : R → Except ErrorImpl R) (buildFresh : Except ErrorImpl R) :
    Except ErrorImpl R × Option (ElfResolverData R) :=
  match cell with
  | some data =>
    if debugSyms then
      match data.dwarf with
      | some r => (.ok r, some data)
      | none =>
        match data.elf with
        | some sibling =>
          match buildFromParser sibling with
          | .ok r => (.ok r, some { data with dwarf := some r })
          | .error e => (.error e, some data)
        | none => (.error panicMissingSibling, some data)
    else
      match data.elf with
      | some r => (.ok r, some data)
      | none =>
        match data.dwarf with
        | some sibling =>
          match buildFromParser sibling with
          | .ok r => (.ok r, some { data with elf := some r })
          | .error e => (.error e, some data)
        | none => (.error panicMissingSibling, some data)
  | none =>
    match buildFresh with
    | .ok r =>
      if debugSyms then
        (.ok r, some { elf := none, dwarf := some r })
      else
        (.ok r, some { elf := some r, dwarf := none })
    | .error e => (.error e, none)

/-! ## Helper lemmas -/

lemma foldl_sep (l : List String) :
    ∀ s : String, List.foldl (fun acc m => acc ++ ": " ++ m) s l = chainText (s :: l) := by
  induction l with
  | nil => intro s; rfl
  | cons m rest ih =>
    intro s
    have step : chainText ((s ++ ": " ++ m) :: rest) = s ++ ": " ++ chainText (m :: rest) := by
      cases rest with
      | nil => rfl
      | cons r rs =>
        show (s ++ ": " ++ m) ++ ": " ++ chainText (r :: rs)
            = (s ++ ": ") ++ (m ++ ": " ++ chainText (r :: rs))
        rw [← String.append_assoc, ← String.append_assoc]
    calc List.foldl (fun acc m => acc ++ ": " ++ m) s (m :: rest)
        = List.foldl (fun acc m => acc ++ ": " ++ m) (s ++ ": " ++ m) rest := rfl
      _ = chainText ((s ++ ": " ++ m) :: rest) := ih (s ++ ": " ++ m)
      _ = s ++ ": " ++ chainText (m :: rest) := step

lemma foldl_indent (l : List String) :
    ∀ s : String, List.foldl (fun acc m => acc ++ "\n    " ++ m) s l = s ++ indentedLines l := by
  induction l with
  | nil => intro s; exact (String.append_empty s).symm
  | cons m rest ih =>
    intro s
    calc List.foldl (fun acc m => acc ++ "\n    " ++ m) s (m :: rest)
        = List.foldl (fun acc m => acc ++ "\n    " ++ m) (s ++ "\n    " ++ m) rest := rfl
      _ = (s ++ "\n    " ++ m) ++ indentedLines rest := ih _
      _ = s ++ ("\n    " ++ m ++ indentedLines rest) := by
          simp [String.append_assoc]
      _ = s ++ indentedLines (m :: rest) := rfl

/-! ## Claim theorems: error model -/

/-- C8. For every error value: the short display form prints exactly the
outermost (top-level) context message — the head of the message chain, and
layering a context makes that context the new head — and the long display
form prints the outermost message followed by every source in the chain from
outermost context to root cause, joined by `": "`; the `Debug` long form
prints the same chain as a `Caused by:` block. -/
theorem error_display_modes (e : ErrorImpl) :
    e.displayShort = e.messages.headI ∧
    e.displayLong = chainText e.messages ∧
    e.debugFmt = ("Error: " ++ e.topDisplay) ++ causedByText e.sourceChain ∧
    (∀ c : CowStr, (e.layerContext c).messages = c.str :: e.messages) := by
  refine ⟨rfl, ?_, ?_, ?_⟩
  · show List.foldl (fun acc m => acc ++ ": " ++ m) e.topDisplay e.sourceChain
        = chainText (e.topDisplay :: e.sourceChain)
    exact foldl_sep _ _
  · show ErrorImpl.debugFmt e = _
    unfold ErrorImpl.debugFmt
    cases h : e.sourceChain with
    | nil => simp [causedByText, String.append_empty]
    | cons m rest =>
      simp only [causedByText]
      rw [foldl_indent]
      rw [show ("" : String) ++ indentedLines (m :: rest) = indentedLines (m :: rest) from
        String.empty_append _]
      rw [String.append_assoc]
  · intro c
    cases c with
    | borrowed s => rfl
    | owned s => rfl

/-- C9. Layering context onto an error, through `layer_context` or the
`context`/`with_context` operations of `ErrorExt`, never changes the
observable `ErrorKind`. -/
theorem context_preserves_kind (e : ErrorImpl) :
    (∀ c : CowStr, (e.layerContext c).kind = e.kind) ∧
    (∀ s : String, (e.context s).kind = e.kind) ∧
    (∀ s : String, (e.withContext s).kind = e.kind) := by
  refine ⟨fun c => ?_, fun s => rfl, fun s => rfl⟩
  cases c with
  | borrowed s => rfl
  | owned s => rfl

/-! ## Claim theorems: ELF symbol typing -/

/-- C10. `sym_matches` with the `Function` filter accepts exactly the
entries of ELF type `STT_FUNC` or `STT_GNU_IFUNC`, with the `Variable`
filter exactly those of type `STT_OBJECT`, and with the `Undefined` filter
exactly the union of the two; the `TryFrom` classification agrees. -/
theorem sym_matches_characterization (s : Elf64_Sym) :
    (sym_matches s SymType.Function = true ↔
      st_type s.st_info = STT_FUNC ∨ st_type s.st_info = STT_GNU_IFUNC) ∧
    (sym_matches s SymType.Variable = true ↔ st_type s.st_info = STT_OBJECT) ∧
    (sym_matches s SymType.Undefined = true ↔
      (sym_matches s SymType.Function = true ∨ sym_matches s SymType.Variable = true)) ∧
    (symTypeOfElf s = some SymType.Function ↔ sym_matches s SymType.Function = true) ∧
    (symTypeOfElf s = some SymType.Variable ↔ sym_matches s SymType.Variable = true) := by
  refine ⟨?_, ?_, ?_, ?_, ?_⟩
  · simp [sym_matches, Bool.or_eq_true, beq_iff_eq]
  · simp [sym_matches, beq_iff_eq]
  · simp [sym_matches, Bool.or_eq_true, beq_iff_eq]
  · simp only [symTypeOfElf, sym_matches, Bool.or_eq_true, beq_iff_eq,
      STT_FUNC, STT_GNU_IFUNC, STT_OBJECT]
    split_ifs with h1 h2 <;> simp_all
  · simp only [symTypeOfElf, sym_matches, Bool.or_eq_true, beq_iff_eq,
      STT_FUNC, STT_GNU_IFUNC, STT_OBJECT]
    split_ifs with h1 h2 <;> simp_all
    omega

/-! ## Claim theorems: DWARF source-language mapping -/

/-- C7 counterexample. `DW_LANG_C_plus_plus_17` is a member of the
`DW_LANG_C_plus_plus*` family, yet the language conversion maps it to
`Unknown`, not `Cpp`: the claim that every member of the family maps to
`Cpp` is false. -/
theorem srcLang_cpp17_not_cpp :
    DW_LANG_C_plus_plus_17 ∈ cppFamilyCodes ∧
    srcLangFrom (some DW_LANG_C_plus_plus_17) = SrcLang.Unknown ∧
    srcLangFrom (some DW_LANG_C_plus_plus_17) ≠ SrcLang.Cpp := by
  refine ⟨by decide, by decide, by decide⟩

/-- C7 (amended). `DW_LANG_Rust` maps to `Rust`; exactly the four family
members `DW_LANG_C_plus_plus`, `_03`, `_11` and `_14` map to `Cpp`; every
other value — including `DW_LANG_C_plus_plus_17` and `_20` — and an absent
attribute map to `Unknown`. -/
theorem srcLang_mapping (l : Option Nat) :
    (srcLangFrom l = SrcLang.Rust ↔ l = some DW_LANG_Rust) ∧
    (srcLangFrom l = SrcLang.Cpp ↔
      l = some DW_LANG_C_plus_plus ∨ l = some DW_LANG_C_plus_plus_03 ∨
      l = some DW_LANG_C_plus_plus_11 ∨ l = some DW_LANG_C_plus_plus_14) ∧
    (srcLangFrom l = SrcLang.Unknown ↔
      ¬ (l = some DW_LANG_Rust ∨ l = some DW_LANG_C_plus_plus ∨
        l = some DW_LANG_C_plus_plus_03 ∨ l = some DW_LANG_C_plus_plus_11 ∨
        l = some DW_LANG_C_plus_plus_14)) := by
  rcases l with _ | n
  · simp [srcLangFrom]
  · simp only [srcLangFrom, Option.some.injEq]
    split_ifs with h1 h2 <;> simp_all [DW_LANG_Rust, DW_LANG_C_plus_plus,
      DW_LANG_C_plus_plus_03, DW_LANG_C_plus_plus_11, DW_LANG_C_plus_plus_14]

/-! ## Claim theorems: inline-stack assembly -/

lemma fillStep_cons (d : CodeInfo) (n m : String) (p : Option CodeInfo)
    (e : Location) (revTail : List InlinedFn) :
    fillStep (d, { name := n, code_info := p } :: revTail) (m, some e)
      = (d, { name := m, code_info := p } ::
          { name := n, code_info := some (codeInfoOf e) } :: revTail) := rfl

lemma fillStep_fold (rest : List (String × Location)) :
    ∀ (d : CodeInfo) (n : String) (p : Option CodeInfo) (revTail : List InlinedFn),
    List.foldl fillStep (d, { name := n, code_info := p } :: revTail)
      (rest.map (fun q => (q.1, some q.2)))
    = (d, (chainFrames p n rest).reverse ++ revTail) := by
  induction rest with
  | nil => intro d n p revTail; simp [chainFrames]
  | cons q rest ih =>
    intro d n p revTail
    obtain ⟨m, e⟩ := q
    rw [List.map_cons, List.foldl_cons, fillStep_cons,
      ih d m p ({ name := n, code_info := some (codeInfoOf e) } :: revTail)]
    simp [chainFrames, List.append_assoc]

lemma fillLoop_all_some (direct : CodeInfo) (n0 : String) (c0 : Location)
    (rest : List (String × Location)) :
    fillLoop direct (((n0, c0) :: rest).map (fun q => (q.1, some q.2)))
      = (codeInfoOf c0, chainFrames (some direct) n0 rest) := by
  unfold fillLoop
  rw [List.map_cons, List.foldl_cons,
    show fillStep (direct, []) (n0, some c0)
        = (codeInfoOf c0, [{ name := n0, code_info := some direct }]) from rfl,
    fillStep_fold rest (codeInfoOf c0) n0 (some direct) []]
  simp

lemma chainFrames_map_name (p : Option CodeInfo) (n : String)
    (rest : List (String × Location)) :
    (chainFrames p n rest).map InlinedFn.name = n :: rest.map Prod.fst := by
  induction rest generalizing n with
  | nil => rfl
  | cons q rest ih => obtain ⟨m, e⟩ := q; simp [chainFrames, ih]

lemma chainFrames_map_code_info (p : Option CodeInfo) (n : String)
    (rest : List (String × Location)) :
    (chainFrames p n rest).map InlinedFn.code_info
      = rest.map (fun q => some (codeInfoOf q.2)) ++ [p] := by
  induction rest generalizing n with
  | nil => rfl
  | cons q rest ih => obtain ⟨m, e⟩ := q; simp [chainFrames, ih]

/-- C1 counterexample. With the nesting path root→leaf (`outer` inlined into
the physical function, `inner` inlined into `outer` and covering the
address), `fill_code_info` emits the frames in path order — `outer` first —
and attaches the line-program row to the **last** (innermost) frame: the
emitted list is not ordered innermost-first as the claim states, since the
first frame is the outermost one, carrying the call site of `inner` rather
than the line-program row. -/
theorem inline_order_counterexample :
    fillCodeInfo exPhysSym { code_info := true, inlined_fns := true }
        (.ok (some exDirectLoc)) (some (.ok (some exStack)))
      = .ok { exPhysSym with
          code_info := some (codeInfoOf exOuterCall)
          inlined := [{ name := "outer", code_info := some (codeInfoOf exInnerCall) },
                      { name := "inner", code_info := some (codeInfoOf exDirectLoc) }] } ∧
    ("outer" : String) ≠ "inner" ∧
    codeInfoOf exInnerCall ≠ codeInfoOf exDirectLoc := by
  refine ⟨rfl, by decide, by decide⟩

/-- C1 (amended). For a lookup with code information and inlined functions
enabled, a found line-program row `loc`, and a non-empty inline nesting path
given root→leaf with all call sites present: the emitted frames preserve the
path order, i.e. they are ordered outermost-first (innermost last); every
frame except the last carries the call site of the frame immediately inside
it (the next list entry); the last (innermost) frame carries the
line-program row; and the call site of the first (outermost) frame becomes
the code information of the physically resolved symbol. -/
theorem inline_frame_shift (sym : ResolvedSym) (opts : FindSymOpts) (loc : Location)
    (n0 : String) (c0 : Location) (rest : List (String × Location))
    (hci : opts.code_info = true) (hin : opts.inlined_fns = true) :
    ∃ r : ResolvedSym,
      fillCodeInfo sym opts (.ok (some loc))
          (some (.ok (some (((n0, c0) :: rest).map (fun q => (q.1, some q.2)))))) = .ok r ∧
      r.code_info = some (codeInfoOf c0) ∧
      r.inlined.map InlinedFn.name = n0 :: rest.map Prod.fst ∧
      r.inlined.map InlinedFn.code_info
        = rest.map (fun q => some (codeInfoOf q.2)) ++ [some (codeInfoOf loc)] ∧
      r.name = sym.name ∧ r.addr = sym.addr ∧ r.size = sym.size := by
  refine ⟨{ sym with
      code_info := some (codeInfoOf c0)
      inlined := chainFrames (some (codeInfoOf loc)) n0 rest }, ?_,
    rfl, chainFrames_map_name _ _ _, chainFrames_map_code_info _ _ _, rfl, rfl, rfl⟩
  unfold fillCodeInfo
  rw [hci, hin]
  simp only [Bool.true_eq_false, if_false, if_true]
  rw [fillLoop_all_some]

/-- Witness for the amended C1 theorem at a concrete two-frame input. -/
theorem inline_frame_shift_witness :
    ({ code_info := true, inlined_fns := true } : FindSymOpts).code_info = true ∧
    ({ code_info := true, inlined_fns := true } : FindSymOpts).inlined_fns = true ∧
    (∃ r : ResolvedSym,
      fillCodeInfo exPhysSym { code_info := true, inlined_fns := true }
          (.ok (some exDirectLoc))
          (some (.ok (some ((("outer", exOuterCall) :: [("inner", exInnerCall)]).map
            (fun q => (q.1, some q.2)))))) = .ok r ∧
      r.code_info = some (codeInfoOf exOuterCall) ∧
      r.inlined.map InlinedFn.name = "outer" :: [("inner", exInnerCall)].map Prod.fst ∧
      r.inlined.map InlinedFn.code_info
        = [("inner", exInnerCall)].map (fun q => some (codeInfoOf q.2))
          ++ [some (codeInfoOf exDirectLoc)] ∧
      r.name = exPhysSym.name ∧ r.addr = exPhysSym.addr ∧ r.size = exPhysSym.size) :=
  ⟨rfl, rfl, inline_frame_shift exPhysSym { code_info := true, inlined_fns := true }
    exDirectLoc "outer" exOuterCall [("inner", exInnerCall)] rfl rfl⟩

/-! ## Claim theorems: DWARF find_sym ELF fallback -/

/-- C2. When the DWARF unit index contains no function covering the address
(`find_function` succeeds with no match), `find_sym` falls back to the ELF
symbol table of its parser: an ELF miss reason is returned inside a
successful result; an ELF symbol is returned enriched with the source-line
information found by the line program (when a row is found, it becomes the
symbol's code information; otherwise the symbol is returned as delivered by
ELF); an ELF error propagates. -/
theorem dwarf_find_sym_elf_fallback (opts : FindSymOpts) (hci : opts.code_info = true)
    (dl : Option Location)
    (inlineRes : Except ErrorImpl (Option (List (String × Option Location)))) :
    (∀ reason : Reason,
      dwarfFindSym (.ok none) (.ok (.inl reason)) (.ok dl) inlineRes opts
        = .ok (.inl reason)) ∧
    (∀ sym : ResolvedSym,
      dwarfFindSym (.ok none) (.ok (.inr sym)) (.ok dl) inlineRes opts
        = .ok (.inr (match dl with
            | some loc => { sym with code_info := some (codeInfoOf loc), inlined := [] }
            | none => sym))) ∧
    (∀ e : ErrorImpl,
      dwarfFindSym (.ok none) (.error e) (.ok dl) inlineRes opts = .error e) := by
  obtain ⟨ci, inl⟩ := opts
  cases ci with
  | false => cases hci
  | true =>
    refine ⟨fun reason => rfl, fun sym => ?_, fun e => rfl⟩
    cases dl with
    | none => cases inl <;> rfl
    | some loc => cases inl <;> rfl

/-- Witness for the C2 theorem at concrete inputs. -/
theorem dwarf_find_sym_elf_fallback_witness :
    ({ code_info := true, inlined_fns := false } : FindSymOpts).code_info = true ∧
    dwarfFindSym (.ok none) (.ok (.inl Reason.NoSymbol)) (.ok (some exDirectLoc)) (.ok none)
        { code_info := true, inlined_fns := false }
      = .ok (.inl Reason.NoSymbol) ∧
    dwarfFindSym (.ok none) (.ok (.inr exPhysSym)) (.ok (some exDirectLoc)) (.ok none)
        { code_info := true, inlined_fns := false }
      = .ok (.inr { exPhysSym with code_info := some (codeInfoOf exDirectLoc), inlined := [] }) :=
  ⟨rfl,
    (dwarf_find_sym_elf_fallback { code_info := true, inlined_fns := false } rfl
      (some exDirectLoc) (.ok none)).1 Reason.NoSymbol,
    (dwarf_find_sym_elf_fallback { code_info := true, inlined_fns := false } rfl
      (some exDirectLoc) (.ok none)).2.1 exPhysSym⟩

/-! ## Claim theorems: composed name lookup -/

/-- C4. With a DWARF backend present, `ElfResolver::find_addr` asks DWARF
first and returns its result whenever it is a non-empty list; only an empty
DWARF result falls back to the ELF symbol table. -/
theorem find_addr_dwarf_first (dwarfRes elfRes : Except ErrorImpl (List SymInfo)) :
    (∀ syms : List SymInfo, dwarfRes = .ok syms → syms ≠ [] →
      elfResolverFindAddr dwarfRes elfRes = .ok syms) ∧
    (dwarfRes = .ok [] → elfResolverFindAddr dwarfRes elfRes = elfRes) := by
  constructor
  · intro syms h hne
    subst h
    cases syms with
    | nil => exact absurd rfl hne
    | cons a l => rfl
  · intro h
    subst h
    rfl

/-- Witness for the C4 theorem at concrete inputs. -/
theorem find_addr_dwarf_first_witness :
    ((.ok [exSymInfo] : Except ErrorImpl (List SymInfo)) = .ok [exSymInfo]) ∧
    ([exSymInfo] ≠ ([] : List SymInfo)) ∧
    elfResolverFindAddr (.ok [exSymInfo]) (.ok []) = .ok [exSymInfo] ∧
    elfResolverFindAddr (.ok ([] : List SymInfo)) (.error (ErrorImpl.dwarf "boom"))
      = .error (ErrorImpl.dwarf "boom") :=
  ⟨rfl, by simp,
    (find_addr_dwarf_first (.ok [exSymInfo]) (.ok [])).1 [exSymInfo] rfl (by simp),
    (find_addr_dwarf_first (.ok []) (.error (ErrorImpl.dwarf "boom"))).2 rfl⟩

/-! ## Claim theorems: refused DWARF operations -/

/-- C5. On the DWARF resolver, `find_addr` with the `Variable` symbol-type
filter fails with an `Unsupported` error for every name — independently of
the name-lookup and file-offset machinery, so no lookup work can influence
the outcome — and `for_each` fails with an `Unsupported` error for every
options value. -/
theorem dwarf_unsupported_ops (findName : String → List (Except ErrorImpl DwFunc))
    (fileOffset : Nat → Except ErrorImpl (Option Nat)) (path name : String)
    (opts : FindAddrOpts) (hvar : opts.sym_type = SymType.Variable) :
    dwarfFindAddr findName fileOffset path name opts
      = .error (ErrorImpl.withUnsupported "not implemented") ∧
    (ErrorImpl.withUnsupported "not implemented").kind = ErrorKind.Unsupported ∧
    (∀ (findName2 : String → List (Except ErrorImpl DwFunc))
        (fileOffset2 : Nat → Except ErrorImpl (Option Nat)) (path2 name2 : String),
      dwarfFindAddr findName2 fileOffset2 path2 name2 opts
        = dwarfFindAddr findName fileOffset path name opts) ∧
    (∀ opts2 : FindAddrOpts,
      dwarfForEach opts2 = .error (ErrorImpl.withUnsupported
        "DWARF logic does not currently support symbol iteration") ∧
      (ErrorImpl.withUnsupported
        "DWARF logic does not currently support symbol iteration").kind
        = ErrorKind.Unsupported) := by
  refine ⟨?_, rfl, ?_, fun opts2 => ⟨rfl, rfl⟩⟩
  · unfold dwarfFindAddr
    rw [hvar]
    rfl
  · intro findName2 fileOffset2 path2 name2
    unfold dwarfFindAddr
    rw [hvar]
    rfl

/-- Witness for the C5 theorem at concrete inputs. -/
theorem dwarf_unsupported_ops_witness :
    ({ offset_in_file := false, sym_type := SymType.Variable } : FindAddrOpts).sym_type
      = SymType.Variable ∧
    dwarfFindAddr (fun _ => []) (fun _ => .ok none) "bin" "anything"
        { offset_in_file := false, sym_type := SymType.Variable }
      = .error (ErrorImpl.withUnsupported "not implemented") ∧
    dwarfForEach { offset_in_file := false, sym_type := SymType.Variable }
      = .error (ErrorImpl.withUnsupported
        "DWARF logic does not currently support symbol iteration") :=
  ⟨rfl,
    (dwarf_unsupported_ops (fun _ => []) (fun _ => .ok none) "bin" "anything"
      { offset_in_file := false, sym_type := SymType.Variable } rfl).1,
    ((dwarf_unsupported_ops (fun _ => []) (fun _ => .ok none) "bin" "anything"
      { offset_in_file := false, sym_type := SymType.Variable } rfl).2.2.2
      { offset_in_file := false, sym_type := SymType.Variable }).1⟩

/-! ## Claim theorems: the per-path resolver cache -/

/-- C3. For one path's cache entry: a populated cell is returned as is —
every subsequent request for the same `(path, debug_syms)` combination
yields the stored resolver and leaves the entry untouched — and no call
ever overwrites a populated cell, so each cell is initialized at most
once. -/
theorem resolver_cache_once {R : Type} (data : ElfResolverData R)
    (buildFromParser : R → Except ErrorImpl R) (buildFresh : Except ErrorImpl R) :
    (∀ r : R, data.dwarf = some r →
      elfResolver (some data) true buildFromParser buildFresh = (.ok r, some data)) ∧
    (∀ r : R, data.elf = some r →
      elfResolver (some data) false buildFromParser buildFresh = (.ok r, some data)) ∧
    (∀ (ds : Bool) (r0 : R), data.dwarf = some r0 →
      ((elfResolver (some data) ds buildFromParser buildFresh).2.map
        ElfResolverData.dwarf) = some (some r0)) ∧
    (∀ (ds : Bool) (r0 : R), data.elf = some r0 →
      ((elfResolver (some data) ds buildFromParser buildFresh).2.map
        ElfResolverData.elf) = some (some r0)) := by
  obtain ⟨oe, od⟩ := data
  refine ⟨fun r h => ?_, fun r h => ?_, fun ds r0 h => ?_, fun ds r0 h => ?_⟩
  · simp only at h
    subst h
    rfl
  · simp only at h
    subst h
    rfl
  · simp only at h
    subst h
    cases ds with
    | true => rfl
    | false =>
      cases oe with
      | some r => rfl
      | none =>
        cases hb : buildFromParser r0 with
        | ok r => simp [elfResolver, hb]
        | error e => simp [elfResolver, hb]
  · simp only at h
    subst h
    cases ds with
    | false => rfl
    | true =>
      cases od with
      | some r => rfl
      | none =>
        cases hb : buildFromParser r0 with
        | ok r => simp [elfResolver, hb]
        | error e => simp [elfResolver, hb]

/-- Witness for the C3 theorem at concrete inputs (resolvers abstracted as
naturals). -/
theorem resolver_cache_once_witness :
    (({ elf := some 1, dwarf := some 2 } : ElfResolverData Nat).dwarf = some 2) ∧
    elfResolver (some { elf := some 1, dwarf := some 2 }) true
        (fun _ => .ok 7) (.ok 8)
      = (.ok 2, some { elf := some 1, dwarf := some 2 }) ∧
    elfResolver (some { elf := some 1, dwarf := some 2 }) false
        (fun _ => .ok 7) (.ok 8)
      = (.ok 1, some { elf := some 1, dwarf := some 2 }) ∧
    ((elfResolver (some { elf := none, dwarf := some 2 }) false
        (fun _ => .ok 7) (.ok 8)).2.map ElfResolverData.dwarf) = some (some 2) :=
  ⟨rfl,
    (resolver_cache_once { elf := some 1, dwarf := some 2 }
      (fun _ => .ok 7) (.ok 8)).1 2 rfl,
    (resolver_cache_once { elf := some 1, dwarf := some 2 }
      (fun _ => .ok 7) (.ok 8)).2.1 1 rfl,
    (resolver_cache_once { elf := none, dwarf := some 2 }
      (fun _ => .ok 7) (.ok 8)).2.2.1 false 2 rfl⟩

/-- C6. If building a resolver for a cache cell fails, the error is
propagated and the cache entry is left exactly as it was — nothing is
stored in the cell or in the entry — so a subsequent request for the same
`(path, debug_syms)` evaluates the builder again. -/
theorem cache_error_no_store {R : Type} (buildFromParser : R → Except ErrorImpl R)
    (buildFresh : Except ErrorImpl R) (e : ErrorImpl) :
    (∀ ds : Bool, buildFresh = .error e →
      elfResolver (none : Option (ElfResolverData R)) ds buildFromParser buildFresh
        = (.error e, none)) ∧
    (∀ (data : ElfResolverData R) (r0 : R), data.dwarf = none → data.elf = some r0 →
      buildFromParser r0 = .error e →
      elfResolver (some data) true buildFromParser buildFresh = (.error e, some data)) ∧
    (∀ (data : ElfResolverData R) (r0 : R), data.elf = none → data.dwarf = some r0 →
      buildFromParser r0 = .error e →
      elfResolver (some data) false buildFromParser buildFresh = (.error e, some data)) := by
  refine ⟨fun ds h => ?_, fun data r0 hd he hb => ?_, fun data r0 he hd hb => ?_⟩
  · subst h
    cases ds <;> rfl
  · obtain ⟨oe, od⟩ := data
    simp only at hd he
    subst hd
    subst he
    simp [elfResolver, hb]
  · obtain ⟨oe, od⟩ := data
    simp only at hd he
    subst hd
    subst he
    simp [elfResolver, hb]

/-- Witness for the C6 theorem at concrete inputs (resolvers abstracted as
naturals). -/
theorem cache_error_no_store_witness :
    ((.error (ErrorImpl.dwarf "bad") : Except ErrorImpl Nat) = .error (ErrorImpl.dwarf "bad")) ∧
    elfResolver (none : Option (ElfResolverData Nat)) true
        (fun _ => .ok 7) (.error (ErrorImpl.dwarf "bad"))
      = (.error (ErrorImpl.dwarf "bad"), none) ∧
    elfResolver (some { elf := some 1, dwarf := none }) true
        (fun _ => .error (ErrorImpl.dwarf "bad")) (.ok 8)
      = (.error (ErrorImpl.dwarf "bad"), some { elf := some 1, dwarf := none }) :=
  ⟨rfl,
    (cache_error_no_store (fun _ => .ok 7) (.error (ErrorImpl.dwarf "bad"))
      (ErrorImpl.dwarf "bad")).1 true rfl,
    (cache_error_no_store (fun _ => .error (ErrorImpl.dwarf "bad")) (.ok 8)
      (ErrorImpl.dwarf "bad")).2.1 { elf := some 1, dwarf := none } 1 rfl rfl rfl⟩

end Blazesym
